import Mathlib

/-!
Verification of the tier repository's control-plane behavior.

This file shallowly embeds the Go sources (`src/client/tier/client.go`,
`src/client/tier/usage.go`) and, where a component's implementation is not in
the tree (the sidecar handlers, the schedule engine, the catalog translator),
models it from the specification and the repository's own tests.  Network
calls are embedded as explicit parameters: a client call such as
`LookupLimits` becomes an argument of type `Except TErr UsageResponse`
describing what the wire returned.
-/

namespace TierSpec

/-- The error taxonomy of §7: value-comparable sentinels plus the structured
provider error `{type, code, message, param, http_status}` (here collapsed to
status/code/message, the fields the claims mention) and the context's
deadline-exceeded error. -/
inductive TErr where
  | invalidRef (s : String)
  | http (status : Nat) (code : String) (msg : String)
  | deadlineExceeded
  | featureNotFound
  | featureNotMetered
  | invalidPhase
  | tooManyItems
  | invalidEmail
  | invalidMetadata
  | orgNotFound
  deriving DecidableEq, Repr

/-- Characters accepted inside a feature name (letters, digits, `_`, `:`);
tests use names such as `feature:t` and `feature:10`. -/
def nameChar (c : Char) : Bool := c.isAlphanum || c = '_' || c = ':'

/-- Modelled from the spec: `refs.ParseName` (the `refs` package is not under
`src/`).  A feature name reference is `feature:<name>` with a nonempty name
(§3: "*Feature name only*: `feature:<name>` (no plan, no version)"); parsing
fails with the invalid-reference error.  Equality of parsed names is textual,
so a parsed name is represented by its textual form. -/
def parseName (s : String) : Except TErr String :=
  if s.data.take 8 == "feature:".data && !(s.data.drop 8).isEmpty
      && (s.data.drop 8).all nameChar then
    .ok s
  else
    .error (.invalidRef s)

/-- One entry of `apitypes.UsageResponse.Usage` as read by
`Client.LookupLimit` (client.go:95-99): feature name, used, limit. -/
structure Usage where
  feature : String
  used : Int
  limit : Int
  deriving DecidableEq, Repr

/-- `apitypes.UsageResponse`: the body returned by `GET /v1/limits`. -/
structure UsageResponse where
  org : String
  usage : List Usage
  deriving DecidableEq, Repr

/-- The `for _, u := range limits.Usage` loop of `Client.LookupLimit`
(client.go:95-100): first entry whose feature equals `fn` wins; if none
matches, both limit and used are zero. -/
def findLimit : List Usage → String → Int × Int
  | [], _ => (0, 0)
  | u :: us, fn => if u.feature = fn then (u.limit, u.used) else findLimit us fn

/-- `Client.LookupLimit` (client.go:86-101).  The sidecar round trip
`c.LookupLimits(ctx, org)` is embedded as the parameter `limits`. -/
def LookupLimit (limits : Except TErr UsageResponse) (feature : String) :
    Except TErr (Int × Int) := do
  let fn ← parseName feature
  let resp ← limits
  pure (findLimit resp.usage fn)

/-- `apitypes.ReportRequest` as built by `Client.Report` (client.go:172-177):
the org, the parsed feature name and the reported quantity (the `At`
timestamp is `time.Now()` and is not modelled). -/
structure ReportRequest where
  org : String
  feature : String
  n : Int
  deriving DecidableEq, Repr

/-- `Client.Report` (client.go:167-179): parse the feature name, then POST a
`ReportRequest` to `/v1/report`.  The result is the request put on the wire. -/
def ClientReport (org feature : String) (n : Int) : Except TErr ReportRequest := do
  let fn ← parseName feature
  pure { org := org, feature := fn, n := n }

/-- `tier.Answer` (client.go:106-110): ok flag, saved error, and the deferred
report closure.  The closure returns the `ReportRequest` it would POST. -/
structure Answer where
  ok : Bool
  err : Option TErr
  report : Option (Int → Except TErr ReportRequest)

/-- `Answer.OK` (client.go:116). -/
def Answer.OK (a : Answer) : Bool := a.ok

/-- `Answer.Err` (client.go:119). -/
def Answer.Err (a : Answer) : Option TErr := a.err

/-- `Answer.ReportN` (client.go:125-130): call the stored closure if non-nil,
otherwise do nothing (`.ok none`: no request issued, nil error). -/
def Answer.ReportN (a : Answer) (n : Int) : Except TErr (Option ReportRequest) :=
  match a.report with
  | some r => (r n).map some
  | none => .ok none

/-- `Answer.Report` (client.go:122): the same as calling `ReportN(1)`. -/
def Answer.Report (a : Answer) : Except TErr (Option ReportRequest) :=
  a.ReportN 1

/-- `Client.Can` (client.go:148-163).  On lookup error: fail open with the
error saved and no report closure.  On `used >= limit`: the zero `Answer`.
Otherwise ok with the closure `func(n int) error { return c.Report(ctx, org,
feature, 1) }` — note the literal `1` from client.go:160. -/
def Can (limits : Except TErr UsageResponse) (org feature : String) : Answer :=
  match LookupLimit limits feature with
  | .error e => { ok := true, err := some e, report := none }
  | .ok (limit, used) =>
    if used ≥ limit then { ok := false, err := none, report := none }
    else { ok := true, err := none, report := some fun _n => ClientReport org feature 1 }

/-- Claim C1 (code bug): with a successful entitlement check (`used < limit`),
the spec and `ReportN`'s own doc comment promise that `ReportN n` reports a
usage of exactly `n` units, but the closure stored by `Can` calls
`c.Report(ctx, org, feature, 1)`, discarding `n`: here `ReportN 2` puts a
request with `n = 1` on the wire.  The `Report() ≡ ReportN(1)` half of the
claim does hold. -/
theorem c1_reportN_ignores_n :
    (Can (.ok ⟨"org:o", [⟨"feature:f", 1, 5⟩]⟩) "org:o" "feature:f").ReportN 2
      = .ok (some ⟨"org:o", "feature:f", 1⟩)
    ∧ (Can (.ok ⟨"org:o", [⟨"feature:f", 1, 5⟩]⟩) "org:o" "feature:f").Report
      = (Can (.ok ⟨"org:o", [⟨"feature:f", 1, 5⟩]⟩) "org:o" "feature:f").ReportN 1 := by
  exact ⟨by rfl, by rfl⟩

/-- Claim C5: if the limits lookup inside `Can` fails with any error `e`, the
answer is fail-open: `OK() = true`, `Err() = e` (non-nil), and the report
closure is nil, so no usage is ever reported. -/
theorem c5_fail_open (limits : Except TErr UsageResponse) (org feature : String)
    (e : TErr) (h : LookupLimit limits feature = .error e) :
    (Can limits org feature).OK = true
    ∧ (Can limits org feature).Err = some e
    ∧ (Can limits org feature).report = none := by
  have hcan : Can limits org feature = { ok := true, err := some e, report := none } := by
    unfold Can
    rw [h]
  exact ⟨(congrArg Answer.OK hcan).trans rfl, (congrArg Answer.Err hcan).trans rfl,
    (congrArg Answer.report hcan).trans rfl⟩

/-- Witness for C5 at a concrete failing lookup: a 500 from the sidecar. -/
theorem c5_fail_open_witness :
    (Can (.error (.http 500 "internal" "boom")) "org:o" "feature:f").OK = true
    ∧ (Can (.error (.http 500 "internal" "boom")) "org:o" "feature:f").Err
        = some (.http 500 "internal" "boom")
    ∧ (Can (.error (.http 500 "internal" "boom")) "org:o" "feature:f").report = none :=
  c5_fail_open (.error (.http 500 "internal" "boom")) "org:o" "feature:f"
    (.http 500 "internal" "boom") (by rfl)

/-- `findLimit` returns `(0, 0)` when no usage entry matches the feature. -/
theorem findLimit_not_found (us : List Usage) (fn : String)
    (h : ∀ u ∈ us, u.feature ≠ fn) : findLimit us fn = (0, 0) := by
  induction us with
  | nil => rfl
  | cons u us ih =>
    have hu : u.feature ≠ fn := h u (List.mem_cons_self u us)
    simp only [findLimit, if_neg hu]
    exact ih fun v hv => h v (List.mem_cons_of_mem u hv)

/-- Claim C6: when `LookupLimits` succeeds but its usage list has no entry for
the (well-formed) feature, `LookupLimit` returns `limit = 0`, `used = 0` and
no error, and `Can` therefore denies: `OK() = false` with `Err() = nil`.  An
unknown or unsubscribed feature is denied, not failed open. -/
theorem c6_unknown_feature_denied (limits : Except TErr UsageResponse)
    (org feature fn : String) (resp : UsageResponse)
    (hp : parseName feature = .ok fn)
    (hl : limits = .ok resp)
    (hn : ∀ u ∈ resp.usage, u.feature ≠ fn) :
    LookupLimit limits feature = .ok (0, 0)
    ∧ (Can limits org feature).OK = false
    ∧ (Can limits org feature).Err = none := by
  have hlook : LookupLimit limits feature = .ok (0, 0) := by
    unfold LookupLimit
    rw [hp, hl]
    show Except.ok (findLimit resp.usage fn) = Except.ok (0, 0)
    rw [findLimit_not_found resp.usage fn hn]
  have hcan : Can limits org feature = { ok := false, err := none, report := none } := by
    unfold Can
    rw [hlook]
    rfl
  exact ⟨hlook, (congrArg Answer.OK hcan).trans rfl, (congrArg Answer.Err hcan).trans rfl⟩

/-- Witness for C6: a usage list mentioning only `feature:g` denies
`feature:f` with no error. -/
theorem c6_unknown_feature_denied_witness :
    LookupLimit (.ok ⟨"org:o", [⟨"feature:g", 3, 5⟩]⟩) "feature:f" = .ok (0, 0)
    ∧ (Can (.ok ⟨"org:o", [⟨"feature:g", 3, 5⟩]⟩) "org:o" "feature:f").OK = false
    ∧ (Can (.ok ⟨"org:o", [⟨"feature:g", 3, 5⟩]⟩) "org:o" "feature:f").Err = none :=
  c6_unknown_feature_denied (.ok ⟨"org:o", [⟨"feature:g", 3, 5⟩]⟩) "org:o"
    "feature:f" "feature:f" ⟨"org:o", [⟨"feature:g", 3, 5⟩]⟩ (by rfl) rfl
    (by intro u hu; simp only [List.mem_singleton] at hu; subst hu; decide)

/-! ## Usage engine: `Client.ReportUsage` (src/client/tier/usage.go:28-68)

The retry loop is embedded with real time abstracted: `fuel` is the number of
loop iterations the 3-second context (`context.WithTimeout(ctx, 3*time.Second)`,
usage.go:50) admits before `ctx.Done()` fires, and `attempt i` is the outcome
of the `i`-th `c.Stripe.Do` POST of the usage record.  The random idempotency
key (usage.go:48) and the form contents are carried by `usageForm`. -/

/-- `tier.Report` (usage.go:14-18): quantity, timestamp, clobber flag. -/
structure UseReport where
  n : Int
  atTime : Int
  clobber : Bool
  deriving DecidableEq, Repr

/-- The form built by `ReportUsage` (usage.go:37-44): `quantity`, `timestamp`,
and `action` = `set` when clobbering, else `increment`. -/
def usageForm (use : UseReport) : List (String × String) :=
  [("quantity", toString use.n), ("timestamp", toString use.atTime),
   ("action", if use.clobber then "set" else "increment")]

/-- The `for { select ctx.Done ...; err := Do(...); bo.BackOff(ctx, err); if
err == nil { return nil } }` loop of `ReportUsage` (usage.go:55-67).  `fuel`
iterations are admitted by the context; when it is exhausted the loop returns
`ctx.Err()` (deadline exceeded) — the attempt's own error is only logged and
then dropped.  The second component counts the POST attempts made. -/
def reportLoop (attempt : Nat → Except TErr Unit) : Nat → Nat → Except TErr Unit × Nat
  | 0, i => (.error .deadlineExceeded, i)
  | fuel + 1, i =>
    match attempt i with
    | .ok () => (.ok (), i + 1)
    | .error _ => reportLoop attempt fuel (i + 1)

/-- `Client.ReportUsage` (usage.go:28-68).  The
`lookupSubscriptionItemID` round trip is the parameter `lookupSI`; a
non-metered feature fails with `ErrFeatureNotMetered` before any POST. -/
def ReportUsage (lookupSI : Except TErr (String × Bool))
    (attempt : Nat → Except TErr Unit) (fuel : Nat) : Except TErr Unit × Nat :=
  match lookupSI with
  | .error e => (.error e, 0)
  | .ok (_siid, isMetered) =>
    if !isMetered then (.error .featureNotMetered, 0)
    else reportLoop attempt fuel 0

/-- Claim C3, counterexample: every POST returns a 4xx provider error, yet
with two loop iterations available the loop makes two attempts — it retries
the 4xx — and the surfaced error is the context's deadline-exceeded error,
not the last provider error.  This refutes both "never retries an attempt
that failed with a 4xx error" and "surfaces the last provider error when the
deadline expires". -/
theorem c3_retries_4xx_and_drops_error :
    ReportUsage (.ok ("si_1", true))
        (fun _ => .error (.http 400 "invalid_request" "bad request")) 2
      = (.error .deadlineExceeded, 2) := by
  rfl

/-- When every attempt fails, the loop runs until the context deadline and
returns `ctx.Err()` with one attempt per admitted iteration. -/
theorem reportLoop_all_fail (attempt : Nat → Except TErr Unit)
    (h : ∀ j, ∃ e, attempt j = .error e) :
    ∀ fuel i, reportLoop attempt fuel i = (.error .deadlineExceeded, i + fuel) := by
  intro fuel
  induction fuel with
  | zero => intro i; rfl
  | succ m ih =>
    intro i
    obtain ⟨e, he⟩ := h i
    simp only [reportLoop, he, ih (i + 1)]
    congr 1
    omega

/-- Whatever the attempts return, the loop's result is success or the
context's deadline error — never a provider error. -/
theorem reportLoop_never_provider_error (attempt : Nat → Except TErr Unit) :
    ∀ fuel i, (reportLoop attempt fuel i).1 = .ok ()
      ∨ (reportLoop attempt fuel i).1 = .error .deadlineExceeded := by
  intro fuel
  induction fuel with
  | zero => intro i; exact .inr rfl
  | succ m ih =>
    intro i
    cases ha : attempt i with
    | ok u => cases u; left; simp only [reportLoop, ha]
    | error e => simpa only [reportLoop, ha] using ih (i + 1)

/-- Claim C3, amended: after a successful metered-item lookup, `ReportUsage`
(1) returns nil on the first successful attempt, making exactly one POST;
(2) retries every failing attempt — 4xx included — until the 3-second context
deadline (modelled by `fuel`) and then surfaces the context's
deadline-exceeded error, not the last provider error; and (3) its result is
always either success or the deadline error. -/
theorem c3_retry_semantics (attempt : Nat → Except TErr Unit) (fuel : Nat) (si : String) :
    (1 ≤ fuel → attempt 0 = .ok () →
      ReportUsage (.ok (si, true)) attempt fuel = (.ok (), 1))
    ∧ ((∀ j, ∃ e, attempt j = .error e) →
      ReportUsage (.ok (si, true)) attempt fuel = (.error .deadlineExceeded, fuel))
    ∧ ((ReportUsage (.ok (si, true)) attempt fuel).1 = .ok ()
      ∨ (ReportUsage (.ok (si, true)) attempt fuel).1 = .error .deadlineExceeded) := by
  refine ⟨?_, ?_, ?_⟩
  · intro hf h0
    cases fuel with
    | zero => omega
    | succ m => simp only [ReportUsage, Bool.not_true, Bool.false_eq_true, if_false,
        reportLoop, h0]
  · intro hall
    simp only [ReportUsage, Bool.not_true, Bool.false_eq_true, if_false,
      reportLoop_all_fail attempt hall fuel 0, Nat.zero_add]
  · simpa only [ReportUsage, Bool.not_true, Bool.false_eq_true, if_false]
      using reportLoop_never_provider_error attempt fuel 0

/-- Witness for C3 (amended): with three iterations available, an
always-succeeding POST returns nil after one attempt, and an
always-503 POST is retried three times and ends in the deadline error. -/
theorem c3_retry_semantics_witness :
    ReportUsage (.ok ("si_1", true)) (fun _ => .ok ()) 3 = (.ok (), 1)
    ∧ ReportUsage (.ok ("si_1", true))
        (fun _ => .error (.http 503 "rate_limited" "slow down")) 3
      = (.error .deadlineExceeded, 3) :=
  ⟨(c3_retry_semantics (fun _ => .ok ()) 3 "si_1").1 (by decide) rfl,
   (c3_retry_semantics (fun _ => .error (.http 503 "rate_limited" "slow down")) 3 "si_1").2.1
     (fun _j => ⟨.http 503 "rate_limited" "slow down", rfl⟩)⟩

/-! ## Sidecar surface: `GET /v1/phase` (§4.G, §6)

The handler itself is not under `src/` (only `TestPhaseBadOrg`,
src/unnamed/part_000:188-206, exercises it), so it is modelled from the
spec's query-validation rule with Go `FormValue` semantics: a missing query
parameter reads as the empty string. -/

/-- The HTTP error envelope `{status, code, message}` (§6). -/
structure HTTPError where
  status : Nat
  code : String
  msg : String
  deriving DecidableEq, Repr

/-- The body of `PhaseResponse` (§6). -/
structure PhaseResponse where
  effective : Int
  features : List String
  plans : List String
  fragments : List String
  deriving DecidableEq, Repr

/-- `^org:.+`: the parameter starts with `org:` and has at least one more
character. -/
def orgParamOK (org : String) : Bool :=
  org.data.take 4 == "org:".data && 4 < org.data.length

/-- Modelled from the spec: the sidecar `GET /v1/phase` handler (not under
`src/`).  Per §6 every `org=` parameter must match `^org:.+` or the response
is `400 invalid_request` with message `org must be prefixed with "org:"`; a
missing parameter reads as `""` (Go `r.FormValue`) and fails the same check,
as `TestPhaseBadOrg` observes.  A well-formed org with no phase yields
`404 not_found` (`Not Found`), again per that test. -/
def phaseHandler (orgParam : Option String)
    (lookupPhase : String → Option PhaseResponse) : Except HTTPError PhaseResponse :=
  let org := orgParam.getD ""
  if !orgParamOK org then
    .error ⟨400, "invalid_request", "org must be prefixed with \"org:\""⟩
  else
    match lookupPhase org with
    | none => .error ⟨404, "not_found", "Not Found"⟩
    | some p => .ok p

/-- The HTTP status of a handler result (200 standing for any 2xx body). -/
def statusOf (r : Except HTTPError PhaseResponse) : Nat :=
  match r with
  | .error e => e.status
  | .ok _ => 200

/-- Claim C4, counterexample: with the `org` parameter missing, the phase
endpoint answers `400 invalid_request` with the prefix message — not the
`404 not_found` the claim states. -/
theorem c4_missing_org_is_400 :
    phaseHandler none (fun _ => none)
      = .error ⟨400, "invalid_request", "org must be prefixed with \"org:\""⟩
    ∧ statusOf (phaseHandler none (fun _ => none)) ≠ 404 :=
  ⟨rfl, by decide⟩

/-- Claim C4, amended: a present-but-malformed `org` yields `400
invalid_request` with message `org must be prefixed with "org:"`; a missing
`org` reads as the empty string and yields the same `400`; a well-formed
`org` whose phase lookup finds nothing yields `404 not_found`. -/
theorem c4_phase_org_validation (orgParam : Option String)
    (lookupPhase : String → Option PhaseResponse) :
    (∀ org, orgParam = some org → orgParamOK org = false →
      phaseHandler orgParam lookupPhase
        = .error ⟨400, "invalid_request", "org must be prefixed with \"org:\""⟩)
    ∧ (orgParam = none →
      phaseHandler orgParam lookupPhase
        = .error ⟨400, "invalid_request", "org must be prefixed with \"org:\""⟩)
    ∧ (∀ org, orgParam = some org → orgParamOK org = true → lookupPhase org = none →
      phaseHandler orgParam lookupPhase = .error ⟨404, "not_found", "Not Found"⟩) := by
  refine ⟨?_, ?_, ?_⟩
  · intro org h1 h2
    subst h1
    simp [phaseHandler, h2]
  · intro h1
    subst h1
    rfl
  · intro org h1 h2 h3
    subst h1
    simp [phaseHandler, h2, h3]

/-- Witness for C4 (amended) at concrete requests: `org=bogus` → 400, missing
org → 400, `org=org:nope` unknown → 404. -/
theorem c4_phase_org_validation_witness :
    phaseHandler (some "bogus") (fun _ => none)
      = .error ⟨400, "invalid_request", "org must be prefixed with \"org:\""⟩
    ∧ phaseHandler none (fun _ => none)
      = .error ⟨400, "invalid_request", "org must be prefixed with \"org:\""⟩
    ∧ phaseHandler (some "org:nope") (fun _ => none)
      = .error ⟨404, "not_found", "Not Found"⟩ :=
  ⟨(c4_phase_org_validation (some "bogus") (fun _ => none)).1 "bogus" rfl (by decide),
   (c4_phase_org_validation none (fun _ => none)).2.1 rfl,
   (c4_phase_org_validation (some "org:nope") (fun _ => none)).2.2 "org:nope" rfl
     (by decide) rfl⟩

/-! ## Schedule engine (§4.D)

The engine (`tier.run/control`) is not under `src/`; only its tests are
(src/unnamed/part_001).  `SubscribeTo` and `LookupPhases` are therefore
modelled from the spec, constrained by `TestSchedule`: appending a phase
whose effective time equals an existing phase's effective time replaces that
phase's features (the test's downgrade at the unadvanced clock yields two
phases, with a comment "check no new phases"), otherwise a new phase is
appended and prior phases are preserved as historical. -/

/-- One phase of an org's schedule as held by the provider: effective time
(Unix seconds) and the feature-plan references it covers. -/
structure SchedPhase where
  effective : Int
  features : List String
  deriving DecidableEq, Repr

/-- Modelled from the spec: `SubscribeTo` appends a new phase effective now,
preserving prior phases as historical (§4.D); per `TestSchedule`
(src/unnamed/part_001:116-133), subscribing again at an effective time the
schedule already holds replaces that phase's features instead of appending a
duplicate phase. -/
def subscribeTo (sched : List SchedPhase) (now : Int) (fs : List String) :
    List SchedPhase :=
  if sched.any (fun p => p.effective = now) then
    sched.map fun p => if p.effective = now then { p with features := fs } else p
  else
    sched ++ [{ effective := now, features := fs }]

/-- A phase as returned by `LookupPhases`: effective time, features, and the
`Current` flag. -/
structure PhaseOut where
  effective : Int
  features : List String
  current : Bool
  deriving DecidableEq, Repr

/-- The effective time of the current phase: the largest effective time that
is `≤ now` (§4.D "Current phase"). -/
def currentEffective (sched : List SchedPhase) (now : Int) : Option Int :=
  sched.foldl
    (fun acc p =>
      if p.effective ≤ now then
        match acc with
        | none => some p.effective
        | some m => some (max m p.effective)
      else acc)
    none

/-- Insertion step of the sort by effective time. -/
def insertPhase (p : SchedPhase) : List SchedPhase → List SchedPhase
  | [] => [p]
  | q :: qs => if p.effective ≤ q.effective then p :: q :: qs else q :: insertPhase p qs

/-- Sort a schedule by effective time (stable insertion sort). -/
def sortPhases : List SchedPhase → List SchedPhase
  | [] => []
  | p :: ps => insertPhase p (sortPhases ps)

/-- Modelled from the spec: `LookupPhases` returns every phase, sorted by
effective time, with `Current` set exactly on the phase whose effective time
is the largest one `≤ now` (§4.D). -/
def lookupPhases (sched : List SchedPhase) (now : Int) : List PhaseOut :=
  (sortPhases sched).map fun p =>
    { effective := p.effective, features := p.features,
      current := currentEffective sched now == some p.effective }

/-- Claim C2, counterexample: replaying `TestSchedule` with `t0 = 0`,
`t1 = 100` — subscribe to `plan:free` at `t0`, to `plan:pro` at `t1`, then
downgrade back to `plan:free` with the clock still at `t1`.  `LookupPhases`
returns two entries, not the three the claim states; the earlier phase is
unchanged and the `t1` phase now carries `plan:free`'s features and stays
current. -/
theorem c2_downgrade_keeps_two_phases :
    lookupPhases
        (subscribeTo
          (subscribeTo (subscribeTo [] 0 ["feature:x@plan:free@0"]) 100
            ["feature:x@plan:pro@0"])
          100 ["feature:x@plan:free@0"])
        100
      = [{ effective := 0, features := ["feature:x@plan:free@0"], current := false },
         { effective := 100, features := ["feature:x@plan:free@0"], current := true }]
    ∧ (lookupPhases
        (subscribeTo
          (subscribeTo (subscribeTo [] 0 ["feature:x@plan:free@0"]) 100
            ["feature:x@plan:pro@0"])
          100 ["feature:x@plan:free@0"])
        100).length ≠ 3 := by
  exact ⟨by decide, by decide⟩

/-- Claim C2, amended: after `plan:free` at `t0` and `plan:pro` at `t1`, a
subsequent subscribe back to `plan:free` with the clock still at `t1` does
not append a third phase: the `t1` phase's features are replaced and the
earlier phase is untouched, so `LookupPhases` returns two entries whose
first is identical to before the downgrade and whose second is current with
`plan:free`'s features. -/
theorem c2_downgrade_replaces_current (t0 t1 : Int) (free pro : List String)
    (h : t0 < t1) :
    subscribeTo (subscribeTo (subscribeTo [] t0 free) t1 pro) t1 free
      = [{ effective := t0, features := free }, { effective := t1, features := free }]
    ∧ lookupPhases (subscribeTo (subscribeTo (subscribeTo [] t0 free) t1 pro) t1 free) t1
      = [{ effective := t0, features := free, current := false },
         { effective := t1, features := free, current := true }]
    ∧ (subscribeTo (subscribeTo (subscribeTo [] t0 free) t1 pro) t1 free).head?
      = (subscribeTo (subscribeTo [] t0 free) t1 pro).head? := by
  have hne : t0 ≠ t1 := ne_of_lt h
  have hle : t0 ≤ t1 := le_of_lt h
  have h1 : subscribeTo [] t0 free = [{ effective := t0, features := free }] := by
    simp [subscribeTo]
  have h2 : subscribeTo [{ effective := t0, features := free }] t1 pro
      = [{ effective := t0, features := free }, { effective := t1, features := pro }] := by
    simp [subscribeTo, hne]
  have h3 : subscribeTo
        [{ effective := t0, features := free }, { effective := t1, features := pro }] t1 free
      = [{ effective := t0, features := free }, { effective := t1, features := free }] := by
    simp [subscribeTo, hne]
  have hcur : currentEffective
        [{ effective := t0, features := free }, { effective := t1, features := free }] t1
      = some t1 := by
    simp [currentEffective, hle, le_refl, max_eq_right hle]
  refine ⟨by rw [h1, h2, h3], ?_, by rw [h1, h2, h3]; rfl⟩
  rw [h1, h2, h3]
  simp [lookupPhases, sortPhases, insertPhase, hle, hcur, hne, Ne.symm hne]

/-- Witness for C2 (amended) at the test's concrete data. -/
theorem c2_downgrade_replaces_current_witness :
    subscribeTo
        (subscribeTo (subscribeTo [] 0 ["feature:x@plan:free@0"]) 100
          ["feature:x@plan:pro@0"])
        100 ["feature:x@plan:free@0"]
      = [{ effective := 0, features := ["feature:x@plan:free@0"] },
         { effective := 100, features := ["feature:x@plan:free@0"] }]
    ∧ lookupPhases
        (subscribeTo
          (subscribeTo (subscribeTo [] 0 ["feature:x@plan:free@0"]) 100
            ["feature:x@plan:pro@0"])
          100 ["feature:x@plan:free@0"])
        100
      = [{ effective := 0, features := ["feature:x@plan:free@0"], current := false },
         { effective := 100, features := ["feature:x@plan:free@0"], current := true }]
    ∧ (subscribeTo
        (subscribeTo (subscribeTo [] 0 ["feature:x@plan:free@0"]) 100
          ["feature:x@plan:pro@0"])
        100 ["feature:x@plan:free@0"]).head?
      = (subscribeTo (subscribeTo [] 0 ["feature:x@plan:free@0"]) 100
          ["feature:x@plan:pro@0"]).head? :=
  c2_downgrade_replaces_current 0 100 ["feature:x@plan:free@0"] ["feature:x@plan:pro@0"]
    (by decide)

/-! ## Schedule engine: phase validation (§4.D, C9) -/

/-- The catalog the engine resolves phase references against: each existing
feature-plan reference with its currency code (§3 "Feature"). -/
def lookupCurrency (catalog : List (String × String)) (f : String) : Option String :=
  (catalog.find? fun kv => kv.1 == f).map fun kv => kv.2

/-- Are the currencies of the phase's (resolved) features consistent, i.e.
all equal (§4.D "currencies consistent within a phase")? -/
def currenciesConsistent (catalog : List (String × String)) (fs : List String) : Bool :=
  match fs.filterMap (lookupCurrency catalog) with
  | [] => true
  | c :: cs => cs.all fun d => d == c

/-- Modelled from the spec: phase validation of `SubscribeTo` (§4.D
"Validation. Every phase: `0 < len(features) ≤ 20`; all references
resolvable to existing features; currencies consistent within a phase.
Failures: *ErrInvalidPhase*, *ErrTooManyItems*, *ErrFeatureNotFound*"), in
the order `TestScheduleMinMaxItems` (src/unnamed/part_001:157-200)
observes: no features → `ErrInvalidPhase`, more than 20 →
`ErrTooManyItems`, unresolvable reference → `ErrFeatureNotFound`.  A
currency-inconsistent phase is an invalid phase, so it maps to
`ErrInvalidPhase` (of §4.D's three failures it is the phase-shape one; the
tests never exercise this case). -/
def subscribeValidate (catalog : List (String × String)) (fs : List String) : Option TErr :=
  if fs.length = 0 then some .invalidPhase
  else if 20 < fs.length then some .tooManyItems
  else if !(fs.all fun f => (lookupCurrency catalog f).isSome) then some .featureNotFound
  else if !currenciesConsistent catalog fs then some .invalidPhase
  else none

/-- `SubscribeTo` with its validation: validation failures happen before any
side effect, so the schedule comes back unchanged; on success the phase is
applied by `subscribeTo`. -/
def subscribeToOp (catalog : List (String × String)) (sched : List SchedPhase) (now : Int)
    (fs : List String) : Option TErr × List SchedPhase :=
  match subscribeValidate catalog fs with
  | some e => (some e, sched)
  | none => (none, subscribeTo sched now fs)

/-- The 21 features `TestScheduleMinMaxItems` pushes. -/
def items21 : List String :=
  ["feature:0@plan:test@0", "feature:1@plan:test@0", "feature:2@plan:test@0",
   "feature:3@plan:test@0", "feature:4@plan:test@0", "feature:5@plan:test@0",
   "feature:6@plan:test@0", "feature:7@plan:test@0", "feature:8@plan:test@0",
   "feature:9@plan:test@0", "feature:10@plan:test@0", "feature:11@plan:test@0",
   "feature:12@plan:test@0", "feature:13@plan:test@0", "feature:14@plan:test@0",
   "feature:15@plan:test@0", "feature:16@plan:test@0", "feature:17@plan:test@0",
   "feature:18@plan:test@0", "feature:19@plan:test@0", "feature:20@plan:test@0"]

/-- The 20-feature catalog of `TestScheduleMinMaxItems` with one feature's
currency differing (`feature:0` in eur, the rest in usd). -/
def mixedCatalog : List (String × String) :=
  (items21.take 20).map fun f =>
    (f, if f == "feature:0@plan:test@0" then "eur" else "usd")

/-- Claim C9, counterexample: a phase of exactly 20 features, every one
resolvable in the catalog, is rejected with `ErrInvalidPhase` (schedule
untouched) when the features' currencies are not consistent — so "exactly
20 resolvable features succeeds" does not hold of the modelled engine,
which must also enforce §4.D's currency-consistency validation. -/
theorem c9_mixed_currency_rejected :
    (items21.take 20).length = 20
    ∧ ((items21.take 20).all fun f => (lookupCurrency mixedCatalog f).isSome) = true
    ∧ subscribeToOp mixedCatalog [] 0 (items21.take 20) = (some .invalidPhase, []) := by
  refine ⟨by decide, by decide, by decide⟩

/-- Claim C9, amended: subscribing with no features fails with
`ErrInvalidPhase`; with more than 20 features fails with `ErrTooManyItems`;
with exactly 20 resolvable features sharing one currency it succeeds and
applies the phase; with exactly 20 resolvable features of inconsistent
currencies it fails with `ErrInvalidPhase`.  Every failure is deterministic
and happens before any side effect: the schedule comes back unchanged. -/
theorem c9_phase_size_bounds (catalog : List (String × String)) (sched : List SchedPhase)
    (now : Int) (fs : List String) :
    (fs = [] → subscribeToOp catalog sched now fs = (some .invalidPhase, sched))
    ∧ (20 < fs.length → subscribeToOp catalog sched now fs = (some .tooManyItems, sched))
    ∧ (fs.length = 20 → (∀ f ∈ fs, (lookupCurrency catalog f).isSome = true) →
        currenciesConsistent catalog fs = true →
      subscribeToOp catalog sched now fs = (none, subscribeTo sched now fs))
    ∧ (fs.length = 20 → (∀ f ∈ fs, (lookupCurrency catalog f).isSome = true) →
        currenciesConsistent catalog fs = false →
      subscribeToOp catalog sched now fs = (some .invalidPhase, sched)) := by
  have hresolved : (∀ f ∈ fs, (lookupCurrency catalog f).isSome = true) →
      (fs.all fun f => (lookupCurrency catalog f).isSome) = true := by
    intro hres
    rw [List.all_eq_true]
    exact hres
  refine ⟨?_, ?_, ?_, ?_⟩
  · intro h
    subst h
    rfl
  · intro h
    have h0 : ¬fs.length = 0 := by omega
    simp [subscribeToOp, subscribeValidate, h0, h]
  · intro h20 hres hcur
    have h0 : ¬fs.length = 0 := by omega
    have hlt : ¬20 < fs.length := by omega
    simp [subscribeToOp, subscribeValidate, h0, hlt, hresolved hres, hcur]
  · intro h20 hres hcur
    have h0 : ¬fs.length = 0 := by omega
    have hlt : ¬20 < fs.length := by omega
    simp [subscribeToOp, subscribeValidate, h0, hlt, hresolved hres, hcur]

/-- The all-usd catalog of `TestScheduleMinMaxItems` (every pushed feature
has `Currency: "usd"`). -/
def usdCatalog : List (String × String) :=
  items21.map fun f => (f, "usd")

/-- Witness for C9 (amended) at `TestScheduleMinMaxItems`'s data: nil
features, all 21 features, the first 20 against the all-usd catalog, and
the first 20 against the mixed-currency catalog. -/
theorem c9_phase_size_bounds_witness :
    subscribeToOp usdCatalog [] 0 [] = (some .invalidPhase, [])
    ∧ subscribeToOp usdCatalog [] 0 items21 = (some .tooManyItems, [])
    ∧ subscribeToOp usdCatalog [] 0 (items21.take 20)
      = (none, subscribeTo [] 0 (items21.take 20))
    ∧ subscribeToOp mixedCatalog [] 0 (items21.take 20) = (some .invalidPhase, []) :=
  ⟨(c9_phase_size_bounds usdCatalog [] 0 []).1 rfl,
   (c9_phase_size_bounds usdCatalog [] 0 items21).2.1 (by decide),
   (c9_phase_size_bounds usdCatalog [] 0 (items21.take 20)).2.2.1 (by decide)
     (by decide) (by decide),
   (c9_phase_size_bounds mixedCatalog [] 0 (items21.take 20)).2.2.2 (by decide)
     (by decide) (by decide)⟩

/-! ## Schedule engine: concurrent customer dedup (§4.D, C7)

A provider customer record carries the `tier.org` metadata and the
idempotency key that created it.  The engine's algorithm (§4.D "Customer
dedup") is: look up by metadata — a read that does not change provider
state — and, when nothing was found at the time of the read, create with
idempotency key equal to the org id.  Because a racing worker's lookup can
be stale, a worker's provider-visible effect is either a pure read
(`probe`) or a keyed create; the provider collapses creates that reuse an
already-used idempotency key.  A run of N concurrent `SubscribeTo` calls is
any interleaving, i.e. any sequence of such effects with at least one
create. -/

/-- A provider-side customer: id, `tier.org` metadata, creating key. -/
structure Customer where
  id : String
  orgMeta : String
  idemKey : String
  deriving DecidableEq, Repr

/-- Does some customer carry `key` as its creating idempotency key? -/
def hasKey (st : List Customer) (key : String) : Bool :=
  st.any fun c => c.idemKey == key

/-- Modelled from the spec: provider-side customer creation under an
idempotency key (§4.D step 2): a request whose key was already used returns
the existing customer and creates nothing. -/
def createCustomer (st : List Customer) (key org newId : String) : List Customer :=
  if hasKey st key then st
  else st ++ [{ id := newId, orgMeta := org, idemKey := key }]

/-- One concurrent subscriber's provider-visible effect: a metadata lookup
that found a customer (a pure read), or a create with key = org id. -/
inductive SubStep where
  | probe
  | create (newId : String)
  deriving DecidableEq, Repr

/-- Apply one subscriber's effect to the provider state. -/
def applyStep (org : String) (st : List Customer) : SubStep → List Customer
  | .probe => st
  | .create nid => createCustomer st org org nid

/-- Apply an interleaving of subscriber effects. -/
def runSteps (org : String) (st : List Customer) (steps : List SubStep) : List Customer :=
  steps.foldl (applyStep org) st

/-- The customers `ListOrgs` would report for this org (metadata match). -/
def orgCustomers (st : List Customer) (org : String) : List Customer :=
  st.filter fun c => c.orgMeta == org

/-- How many provider customers exist for the org. -/
def countOrg (st : List Customer) (org : String) : Nat :=
  (orgCustomers st org).length

/-- The dedup invariant: either the org has no customer and its key is
unused, or it has exactly one customer and its key is taken. -/
def DedupInv (st : List Customer) (org : String) : Prop :=
  (countOrg st org = 0 ∧ hasKey st org = false)
  ∨ (countOrg st org = 1 ∧ hasKey st org = true)

/-- Appending one customer adds one to the org count iff its metadata
matches. -/
theorem countOrg_append_one (st : List Customer) (c : Customer) (org : String) :
    countOrg (st ++ [c]) org
      = countOrg st org + (if c.orgMeta == org then 1 else 0) := by
  cases hc : c.orgMeta == org <;>
    simp [countOrg, orgCustomers, List.filter_append, List.filter_cons, hc]

/-- Appending one customer takes the key iff the new customer carries it. -/
theorem hasKey_append_one (st : List Customer) (c : Customer) (key : String) :
    hasKey (st ++ [c]) key = (hasKey st key || (c.idemKey == key)) := by
  simp [hasKey, List.any_append, List.any_cons]

/-- Every subscriber effect preserves the dedup invariant. -/
theorem applyStep_inv (org : String) (st : List Customer) (s : SubStep)
    (h : DedupInv st org) : DedupInv (applyStep org st s) org := by
  cases s with
  | probe => exact h
  | create nid =>
    rcases h with ⟨h0, hk⟩ | ⟨h1, hk⟩
    · right
      simp only [applyStep, createCustomer, hk, Bool.false_eq_true, if_false]
      constructor
      · rw [countOrg_append_one, h0]
        simp
      · rw [hasKey_append_one, hk]
        simp
    · right
      simp only [applyStep, createCustomer, hk, if_true]
      exact ⟨h1, trivial⟩

/-- After a create under the invariant, the org has exactly one customer. -/
theorem create_sets_one (org : String) (st : List Customer) (nid : String)
    (h : DedupInv st org) :
    countOrg (applyStep org st (.create nid)) org = 1 := by
  rcases h with ⟨h0, hk⟩ | ⟨h1, hk⟩
  · simp only [applyStep, createCustomer, hk, Bool.false_eq_true, if_false]
    rw [countOrg_append_one, h0]
    simp
  · simpa only [applyStep, createCustomer, hk, if_true] using h1

/-- Once the org has exactly one customer, every further effect keeps it. -/
theorem count_one_preserved (org : String) (st : List Customer) (s : SubStep)
    (h : DedupInv st org) (h1 : countOrg st org = 1) :
    countOrg (applyStep org st s) org = 1 := by
  cases s with
  | probe => exact h1
  | create nid => exact create_sets_one org st nid h

/-- After any interleaving that contains at least one create (or that starts
with the org already deduplicated), the org has exactly one customer. -/
theorem runSteps_dedup (org : String) :
    ∀ (steps : List SubStep) (st : List Customer), DedupInv st org →
      ((∃ nid, SubStep.create nid ∈ steps) ∨ countOrg st org = 1) →
      countOrg (runSteps org st steps) org = 1 := by
  intro steps
  induction steps with
  | nil =>
    intro st _hinv hstart
    rcases hstart with ⟨nid, hmem⟩ | h1
    · exact absurd hmem (List.not_mem_nil _)
    · exact h1
  | cons s rest ih =>
    intro st hinv hstart
    have hinv' : DedupInv (applyStep org st s) org := applyStep_inv org st s hinv
    rcases hstart with ⟨nid, hmem⟩ | h1
    · rcases List.mem_cons.mp hmem with heq | hrest
      · subst heq
        exact ih (applyStep org st (.create nid)) hinv'
          (.inr (create_sets_one org st nid hinv))
      · exact ih (applyStep org st s) hinv' (.inl ⟨nid, hrest⟩)
    · exact ih (applyStep org st s) hinv'
        (.inr (count_one_preserved org st s hinv h1))

/-- The org entries `ListOrgs` reports are `countOrg` copies of the org id. -/
theorem orgCustomers_map_meta (org : String) :
    ∀ st : List Customer,
      (orgCustomers st org).map (fun c => c.orgMeta)
        = List.replicate (countOrg st org) org := by
  intro st
  induction st with
  | nil => rfl
  | cons c cs ih =>
    cases hc : c.orgMeta == org with
    | false => simpa [countOrg, orgCustomers, List.filter_cons, hc] using ih
    | true =>
      have : c.orgMeta = org := by simpa using hc
      simp [countOrg, orgCustomers, List.filter_cons, hc, List.replicate_succ, this]
      simpa [countOrg, orgCustomers] using ih

/-- Claim C7: starting from a provider that knows nothing about the org
(no customer with its metadata, idempotency key unused), any interleaving of
N concurrent `SubscribeTo` effects containing at least one create leaves
exactly one customer for the org, and `ListOrgs` reports the single entry. -/
theorem c7_customer_dedup (org : String) (st : List Customer) (steps : List SubStep)
    (hcount : countOrg st org = 0) (hkey : hasKey st org = false)
    (hcreate : ∃ nid, SubStep.create nid ∈ steps) :
    countOrg (runSteps org st steps) org = 1
    ∧ (orgCustomers (runSteps org st steps) org).map (fun c => c.orgMeta) = [org] := by
  have h1 : countOrg (runSteps org st steps) org = 1 :=
    runSteps_dedup org steps st (.inl ⟨hcount, hkey⟩) (.inl hcreate)
  refine ⟨h1, ?_⟩
  rw [orgCustomers_map_meta org (runSteps org st steps), h1]
  rfl

/-- Witness for C7: three concurrent subscribes (two stale creates, one
probe, one more create) against an empty provider leave one customer. -/
theorem c7_customer_dedup_witness :
    countOrg (runSteps "org:example" []
      [.create "cus_a", .probe, .create "cus_b", .create "cus_c"]) "org:example" = 1
    ∧ (orgCustomers (runSteps "org:example" []
        [.create "cus_a", .probe, .create "cus_b", .create "cus_c"]) "org:example").map
        (fun c => c.orgMeta) = ["org:example"] :=
  c7_customer_dedup "org:example" []
    [.create "cus_a", .probe, .create "cus_b", .create "cus_c"]
    rfl rfl ⟨"cus_a", by decide⟩

/-! ## Catalog translator (§4.C, C8)

The translator (`control.Push`/`control.Pull`) is not under `src/`; only
`TestRoundTrip` (src/client/tier/usage.go, test part) exercises it.  The
push/pull pair is therefore modelled from §4.C: a pushed feature becomes a
provider product/price record whose `tier.*` metadata carries every feature
attribute, scalars as strings (numbers in decimal) and the tier table as the
JSON array of tier objects (modelled as a list of objects with
decimal-string fields); pull decodes the metadata back and stores the
provider price id, and ignores records without the `tier.*` markers. -/

/-- Decimal digit to its character. -/
def digitChar (d : Nat) : Char := Char.ofNat (48 + d)

/-- Character back to its decimal digit value. -/
def charDigit (c : Char) : Nat := c.toNat - 48

/-- Render a natural number in decimal. -/
def encodeNat (n : Nat) : String :=
  if n = 0 then "0" else String.mk ((Nat.digits 10 n).reverse.map digitChar)

/-- Parse a decimal rendering back to a natural number. -/
def decodeNat (s : String) : Nat :=
  Nat.ofDigits 10 ((s.data.map charDigit).reverse)

theorem charDigit_digitChar (d : Nat) (hd : d < 10) : charDigit (digitChar d) = d := by
  interval_cases d <;> decide

theorem map_charDigit_digitChar (l : List Nat) (h : ∀ x ∈ l, x < 10) :
    l.map (charDigit ∘ digitChar) = l := by
  induction l with
  | nil => rfl
  | cons x xs ih =>
    rw [List.map_cons, Function.comp_apply,
      charDigit_digitChar x (h x (List.mem_cons_self x xs)),
      ih fun y hy => h y (List.mem_cons_of_mem x hy)]

/-- The decimal rendering round-trips. -/
theorem decodeNat_encodeNat (n : Nat) : decodeNat (encodeNat n) = n := by
  by_cases h0 : n = 0
  · subst h0
    decide
  · rw [encodeNat, if_neg h0]
    have hstep : decodeNat (String.mk ((Nat.digits 10 n).reverse.map digitChar))
        = Nat.ofDigits 10 ((((Nat.digits 10 n).reverse.map digitChar).map charDigit).reverse) :=
      rfl
    rw [hstep, List.map_map,
      map_charDigit_digitChar ((Nat.digits 10 n).reverse)
        (fun x hx => Nat.digits_lt_base (by norm_num) (List.mem_reverse.mp hx)),
      List.reverse_reverse, Nat.ofDigits_digits]

/-- A price tier `(upto, price, base)` (§3 "Tier"). -/
structure Tier where
  upto : Nat
  price : Nat
  base : Nat
  deriving DecidableEq, Repr

/-- A feature of the declarative catalog (§3 "Feature"): feature-plan
reference (name, plan, version), titles, currency, interval, base price,
tier table, aggregation and tier mode, and the opaque provider id set after
push. -/
structure Feature where
  featureName : String
  planName : String
  version : String
  title : String
  planTitle : String
  currency : String
  interval : String
  base : Nat
  tiers : List Tier
  aggregate : String
  mode : String
  providerID : String
  deriving DecidableEq, Repr

/-- One tier object of the JSON-encoded `tier.tiers` table: decimal-string
fields. -/
structure TierDoc where
  upto : String
  price : String
  base : String
  deriving DecidableEq, Repr

/-- The `tier.*` metadata written on the provider product and price (§4.C):
`tier.plan`, `tier.feature`, `tier.version`, `tier.title`,
`tier.plan_title`, `tier.interval`, `tier.aggregate`, `tier.mode`,
`tier.currency`, `tier.base`, and the tier table under `tier.tiers`. -/
structure PriceMeta where
  plan : String
  feat : String
  version : String
  title : String
  planTitle : String
  interval : String
  aggregate : String
  mode : String
  currency : String
  base : String
  tiersDoc : List TierDoc
  deriving DecidableEq, Repr

/-- A provider product/price record as seen by pull: the derived product id,
the product name, the provider-generated price id, and the `tier.*`
metadata (`none` on records that do not carry the markers). -/
structure PriceRec where
  productID : String
  productName : String
  priceID : String
  meta : Option PriceMeta
  deriving DecidableEq, Repr

/-- Sanitization of a reference for the product id: `:` becomes `-` (§4.C). -/
def sanitizeRef (s : String) : String :=
  String.mk (s.data.map fun c => if c = ':' then '-' else c)

/-- The derived provider product id
`tier__<featureNameSanitized>-<planNameSanitized>-<version>` (§4.C). -/
def derivedProductID (f : Feature) : String :=
  "tier__" ++ sanitizeRef f.featureName ++ "-" ++ sanitizeRef f.planName ++ "-" ++ f.version

def encodeTierDoc (t : Tier) : TierDoc :=
  { upto := encodeNat t.upto, price := encodeNat t.price, base := encodeNat t.base }

def decodeTierDoc (d : TierDoc) : Tier :=
  { upto := decodeNat d.upto, price := decodeNat d.price, base := decodeNat d.base }

/-- Modelled from the spec: push of one feature (§4.C): create the product
with the derived id and name `"<PlanTitle> - <FeatureTitle>"`, create a
price under it, and record the feature's attributes in the `tier.*`
metadata; the provider-generated price id `pid` is reported back as the
feature's `ProviderID`. -/
def pushFeature (f : Feature) (pid : String) : PriceRec :=
  { productID := derivedProductID f,
    productName := f.planTitle ++ " - " ++ f.title,
    priceID := pid,
    meta := some
      { plan := f.planName, feat := f.featureName, version := f.version,
        title := f.title, planTitle := f.planTitle, interval := f.interval,
        aggregate := f.aggregate, mode := f.mode, currency := f.currency,
        base := encodeNat f.base, tiersDoc := f.tiers.map encodeTierDoc } }

/-- Modelled from the spec: pull of one price record (§4.C): records without
the `tier.*` markers are ignored; otherwise the feature is reconstructed by
decoding the metadata, with `ProviderID` taken from the price id. -/
def pullFeature (r : PriceRec) : Option Feature :=
  match r.meta with
  | none => none
  | some m => some
      { featureName := m.feat, planName := m.plan, version := m.version,
        title := m.title, planTitle := m.planTitle, currency := m.currency,
        interval := m.interval, base := decodeNat m.base,
        tiers := m.tiersDoc.map decodeTierDoc, aggregate := m.aggregate,
        mode := m.mode, providerID := r.priceID }

/-- Push a feature set, with the provider answering `pids` as price ids. -/
def pushAll (fs : List Feature) (pids : List String) : List PriceRec :=
  List.zipWith pushFeature fs pids

/-- Pull the whole catalog back. -/
def pullAll (rs : List PriceRec) : List Feature :=
  rs.filterMap pullFeature

/-- Forget the provider id (the "modulo provider ids" of the claim). -/
def erasePID (f : Feature) : Feature := { f with providerID := "" }

/-- Tier tables must be sorted by `upto` strictly ascending (§3 "Tier"). -/
def tiersAscending : List Tier → Bool
  | [] => true
  | [_] => true
  | a :: b :: rest => decide (a.upto < b.upto) && tiersAscending (b :: rest)

/-- A valid feature: a well-prefixed feature-plan reference and a sorted
tier table. -/
def validFeature (f : Feature) : Bool :=
  f.featureName.data.take 8 == "feature:".data
    && f.planName.data.take 5 == "plan:".data
    && tiersAscending f.tiers

theorem decodeTierDoc_encodeTierDoc (t : Tier) : decodeTierDoc (encodeTierDoc t) = t := by
  cases t
  simp [encodeTierDoc, decodeTierDoc, decodeNat_encodeNat]

/-- Pulling a pushed feature recovers it exactly, with `ProviderID` now the
provider's price id. -/
theorem pullFeature_pushFeature (f : Feature) (pid : String) :
    pullFeature (pushFeature f pid) = some { f with providerID := pid } := by
  cases f
  simp [pushFeature, pullFeature, decodeNat_encodeNat, List.map_map, Function.comp_def,
    decodeTierDoc_encodeTierDoc]

theorem pushAll_cons (f : Feature) (fs : List Feature) (p : String) (ps : List String) :
    pushAll (f :: fs) (p :: ps) = pushFeature f p :: pushAll fs ps := rfl

theorem pullAll_cons_some (r : PriceRec) (rs : List PriceRec) (g : Feature)
    (h : pullFeature r = some g) : pullAll (r :: rs) = g :: pullAll rs := by
  simp [pullAll, List.filterMap_cons, h]

/-- Claim C8: for every valid feature set `F` (and one provider price id per
feature), pushing `F` and pulling the catalog back yields, feature for
feature, the same set up to the provider ids: the translation is a lossless
round trip modulo `ProviderID`. -/
theorem c8_catalog_roundtrip (F : List Feature) (pids : List String)
    (hv : ∀ f ∈ F, validFeature f = true) (hl : F.length = pids.length) :
    (pullAll (pushAll F pids)).map erasePID = F.map erasePID := by
  induction F generalizing pids with
  | nil => simp [pushAll, pullAll]
  | cons f fs ih =>
    cases pids with
    | nil => simp at hl
    | cons pid rest =>
      rw [pushAll_cons, pullAll_cons_some (pushFeature f pid) (pushAll fs rest)
          { f with providerID := pid } (pullFeature_pushFeature f pid),
        List.map_cons, List.map_cons,
        ih rest (fun g hg => hv g (List.mem_cons_of_mem f hg)) (by simpa using hl)]
      rfl

/-- The two features `TestRoundTrip` pushes. -/
def rtFeature1 : Feature :=
  { featureName := "feature:test", planName := "plan:free0", version := "0",
    title := "Test2", planTitle := "", currency := "eur", interval := "@daily",
    base := 1000, tiers := [], aggregate := "", mode := "", providerID := "" }

/-- The second (tiered) `TestRoundTrip` feature. -/
def rtFeature2 : Feature :=
  { featureName := "feature:test", planName := "plan:free1", version := "0",
    title := "FeatureTitle", planTitle := "PlanTitle", currency := "usd",
    interval := "@yearly", base := 0,
    tiers := [{ upto := 1, price := 100, base := 1 },
              { upto := 2, price := 200, base := 2 },
              { upto := 3, price := 300, base := 3 }],
    aggregate := "perpetual", mode := "volume", providerID := "" }

/-- Witness for C8 at `TestRoundTrip`'s feature set. -/
theorem c8_catalog_roundtrip_witness :
    (pullAll (pushAll [rtFeature1, rtFeature2] ["price_1", "price_2"])).map erasePID
      = [rtFeature1, rtFeature2].map erasePID :=
  c8_catalog_roundtrip [rtFeature1, rtFeature2] ["price_1", "price_2"]
    (by decide) (by decide)

/-! ## Org info update: `PutCustomer` (§4.D, C10)

`control.PutCustomer` is not under `src/`; only `TestSchedulePutCustomer`
(src/unnamed/part_001:539-638) exercises it.  It is modelled from §4.D:
validate the email syntax, reject updates whose metadata keys begin with
`tier.` (unconditionally, per the spec's "rejects updates whose metadata
keys begin with `tier.`" — the tests never pair a reserved key with a bad
email, so the relative order of the two checks is fixed here as metadata
first), then apply partial-update semantics: an empty-string metadata value
removes that key, missing keys and empty scalar fields leave existing
values intact. -/

/-- `OrgInfo` (§3 "Organization"): email, name, description, phone, and the
user metadata map (an association list). -/
structure OrgInfo where
  email : String
  name : String
  description : String
  phone : String
  metadata : List (String × String)
  deriving DecidableEq, Repr

/-- Is this metadata key reserved (begins with `tier.`)? -/
def tierReserved (k : String) : Bool := k.data.take 5 == "tier.".data

/-- Does the update's metadata touch any reserved key? -/
def metadataReserved (md : List (String × String)) : Bool :=
  md.any fun kv => tierReserved kv.1

/-- Modelled from the spec: the email syntax check — a nonempty local part
and a nonempty domain around a single `@`. -/
def emailOK (e : String) : Bool :=
  match e.data.splitOn '@' with
  | [l, d] => !l.isEmpty && !d.isEmpty
  | _ => false

/-- Partial metadata update (§4.D): keys present in the update replace the
stored value, an empty-string value removes the key, untouched keys stay. -/
def applyMeta (old upd : List (String × String)) : List (String × String) :=
  (old.filter fun kv => (upd.find? fun kv2 => kv2.1 == kv.1).isNone)
    ++ upd.filter fun kv => kv.2 != ""

/-- Apply an update to a stored org record: empty scalar fields mean "leave
as is". -/
def updateInfo (cur upd : OrgInfo) : OrgInfo :=
  { email := if upd.email == "" then cur.email else upd.email,
    name := if upd.name == "" then cur.name else upd.name,
    description := if upd.description == "" then cur.description else upd.description,
    phone := if upd.phone == "" then cur.phone else upd.phone,
    metadata := applyMeta cur.metadata upd.metadata }

/-- Modelled from the spec: `PutCustomer` (§4.D "Org info update").  The
provider's customers are an association list from org id to stored info;
the result pairs the error (if any) with the provider state afterwards, so
"applies no change" is visible as the unchanged list. -/
def putCustomer (orgs : List (String × OrgInfo)) (org : String) (info : OrgInfo) :
    Option TErr × List (String × OrgInfo) :=
  if metadataReserved info.metadata then (some .invalidMetadata, orgs)
  else if info.email != "" && !emailOK info.email then (some .invalidEmail, orgs)
  else
    match orgs.find? fun kv => kv.1 == org with
    | some (_, cur) =>
      (none, orgs.map fun kv => if kv.1 == org then (kv.1, updateInfo cur info) else kv)
    | none => (none, orgs ++ [(org, updateInfo ⟨"", "", "", "", []⟩ info)])

/-- Claim C10: a `PutCustomer` whose metadata contains any key beginning
with `tier.` fails with `ErrInvalidMetadata` and applies no change at all —
the provider state (every org's email, name, and every metadata key,
including ones the update would otherwise have modified or removed) is
exactly as before the call. -/
theorem c10_reserved_metadata_rejected (orgs : List (String × OrgInfo))
    (org : String) (info : OrgInfo)
    (h : ∃ kv ∈ info.metadata, tierReserved kv.1 = true) :
    putCustomer orgs org info = (some .invalidMetadata, orgs) := by
  have hres : metadataReserved info.metadata = true := by
    rw [metadataReserved, List.any_eq_true]
    obtain ⟨kv, hkv, ht⟩ := h
    exact ⟨kv, hkv, ht⟩
  simp [putCustomer, hres]

/-- The stored state of `org:c` before the rejected update in
`TestSchedulePutCustomer`. -/
def orgCState : List (String × OrgInfo) :=
  [("org:c", { email := "c@c.com", name := "", description := "", phone := "",
               metadata := [("foo", "bar")] })]

/-- Witness for C10 at `TestSchedulePutCustomer`'s data: the update
`{email: do@notUpdate.com, metadata: {foo: XXXX, tier.baz: qux}}` fails with
`ErrInvalidMetadata` and leaves `org:c` exactly as before. -/
theorem c10_reserved_metadata_rejected_witness :
    putCustomer orgCState "org:c"
        { email := "do@notUpdate.com", name := "", description := "", phone := "",
          metadata := [("foo", "XXXX"), ("tier.baz", "qux")] }
      = (some .invalidMetadata, orgCState) :=
  c10_reserved_metadata_rejected orgCState "org:c"
    { email := "do@notUpdate.com", name := "", description := "", phone := "",
      metadata := [("foo", "XXXX"), ("tier.baz", "qux")] }
    ⟨("tier.baz", "qux"), by decide, by decide⟩

end TierSpec
